import Mathlib

/-!
Shallow embedding of the htmx-ext-hold extension (the per-frame
progress-loop implementation).  Pure string handling (trigger-token
matching, delay parsing) is embedded as Lean functions on `List Char`;
the per-element hold session (the closure state of `registerElement`)
together with its observable outputs and the browser scheduling queue
is embedded as a `World` record with an explicit event `step` function.
-/

namespace HtmxHold

/-! ## Character classes used by the regular expressions in the source -/

/-- Word characters of the JS regex class backslash-w, used by the word
boundary in the trigger pattern: ASCII letters, digits and underscore. -/
def isWordChar (c : Char) : Bool :=
  ('a' ≤ c && c ≤ 'z') || ('A' ≤ c && c ≤ 'Z') || ('0' ≤ c && c ≤ '9') || c = '_'

/-- Whitespace characters of the JS regex class backslash-s (the ASCII
ones; the trigger grammar only ever uses plain spaces). -/
def jsWhitespace (c : Char) : Bool :=
  c = ' ' || c = '\t' || c = '\n' || c = '\r' || c = '\x0b' || c = '\x0c'

/-- Decimal digit, the JS regex class backslash-d. -/
def jsDigit (c : Char) : Bool := '0' ≤ c && c ≤ '9'

/-! ## HOLD_TRIGGER_PATTERN = /\bhold\b/  (part_004 line 11) -/

/-- Scan for the literal token "hold" with word boundaries on both
sides, carrying the previous character to decide the left boundary.
This is the test of the regex /\bhold\b/. -/
def holdTestAux : Option Char → List Char → Bool
  | prev, 'h' :: 'o' :: 'l' :: 'd' :: rest =>
      ((prev.all fun c => !isWordChar c) &&
        (rest.head?.all fun c => !isWordChar c))
      || holdTestAux (some 'h') ('o' :: 'l' :: 'd' :: rest)
  | _, c :: rest => holdTestAux (some c) rest
  | _, [] => false

/-- Test of HOLD_TRIGGER_PATTERN = /\bhold\b/ against a whole string. -/
def holdTriggerTest (s : String) : Bool := holdTestAux none s.data

/-! ## parseDelay's regex /hold\s+delay:(\d+(?:\.\d+)?(?:ms|s)?)/
(part_004 lines 16-23) and the host's parseInterval collaborator -/

/-- Consume an exact literal from the front of the input, returning the
remainder on success. -/
def dropLit : List Char → List Char → Option (List Char)
  | [], l => some l
  | p :: ps, c :: cs => if c = p then dropLit ps cs else none
  | _ :: _, [] => none

/-- Try the body of the delay regex at one candidate position: the
literal "hold", one or more whitespace characters, the literal "delay:",
then the capture group: digits, an optional fractional part, and an
optional "ms" or "s" unit.  Returns the text of the capture group. -/
def matchDelayAt (l : List Char) : Option (List Char) := do
  let l1 ← dropLit "hold".data l
  let sp := l1.takeWhile jsWhitespace
  if sp.isEmpty then failure
  let l2 ← dropLit "delay:".data (l1.drop sp.length)
  let ds := l2.takeWhile jsDigit
  if ds.isEmpty then failure
  let l3 := l2.drop ds.length
  let (frac, l4) :=
    match l3 with
    | '.' :: rest =>
        let fs := rest.takeWhile jsDigit
        if fs.isEmpty then (([] : List Char), l3)
        else ('.' :: fs, rest.drop fs.length)
    | _ => ([], l3)
  let unit : List Char :=
    match l4 with
    | 'm' :: 's' :: _ => ['m', 's']
    | 's' :: _ => ['s']
    | _ => []
  pure (ds ++ frac ++ unit)

/-- Leftmost match of the delay regex: try each start position from the
left, as the JS regex engine does. -/
def scanDelay : List Char → Option (List Char)
  | [] => none
  | c :: rest =>
      match matchDelayAt (c :: rest) with
      | some cap => some cap
      | none => scanDelay rest

/-- Numeric value of a run of decimal digits. -/
def digitsToNat (l : List Char) : Nat :=
  l.foldl (fun acc c => acc * 10 + (c.toNat - '0'.toNat)) 0

/-- Value of an integer part and a (possibly empty) fractional part. -/
def decToRat (intPart fracPart : List Char) : ℚ :=
  (digitsToNat intPart : ℚ) + (digitsToNat fracPart : ℚ) / (10 ^ fracPart.length : ℚ)

/-- Modelled from the spec: the host collaborator's interval-parsing
function (htmx.parseInterval), which is not part of this repository.
Following the spec's description and the mock used by the repository's
own test-suite, it accepts a full-string match of an integer or decimal
number with an optional unit, "ms" (milliseconds, the default) or "s"
(seconds, multiplied by 1000), and yields no value otherwise. -/
def parseIntervalSyntax (s : String) : Option (List Char × List Char × Bool) :=
  let l := s.data
  let ds := l.takeWhile jsDigit
  if ds.isEmpty then none else
  let l1 := l.drop ds.length
  let (fs, l2) :=
    match l1 with
    | '.' :: rest =>
        let f := rest.takeWhile jsDigit
        if f.isEmpty then (([] : List Char), l1)
        else (f, rest.drop f.length)
    | _ => ([], l1)
  if l1.head? = some '.' && fs.isEmpty then none else
  match l2 with
  | [] => some (ds, fs, false)
  | ['m', 's'] => some (ds, fs, false)
  | ['s'] => some (ds, fs, true)
  | _ => none

/-- Numeric half of parseInterval: the decimal value, times 1000 when
the unit was "s". -/
def parseInterval (s : String) : Option ℚ :=
  (parseIntervalSyntax s).map fun p =>
    if p.2.2 then decToRat p.1 p.2.1 * 1000 else decToRat p.1 p.2.1

/-- Translation of parseDelay (part_004 lines 16-23): match the delay
regex against the trigger spec and hand the captured token to the host's
parseInterval; no match or no parseInterval value yields none. -/
def parseDelay (triggerSpec : String) : Option ℚ :=
  match scanDelay triggerSpec.data with
  | none => none
  | some cap => parseInterval (String.mk cap)

/-- DEFAULT_HOLD_DELAY (part_004 line 1). -/
def DEFAULT_HOLD_DELAY : ℚ := 500

/-- Effective delay of a session (part_004 line 31):
parseDelay(triggerSpec, htmx) ?? DEFAULT_HOLD_DELAY. -/
def effectiveDelay (triggerSpec : String) : ℚ :=
  (parseDelay triggerSpec).getD DEFAULT_HOLD_DELAY

/-! ## Math.round and the progress formula (part_004 lines 47-49) -/

/-- JS Math.round: half-up rounding, the floor of x + 1/2. -/
def jsRound (q : ℚ) : ℤ := ⌊q + 1 / 2⌋

/-- The progress formula of updateProgress (part_004 line 47):
Math.min(elapsed / delay, 1). -/
def progressOf (delay elapsed : ℚ) : ℚ := min (elapsed / delay) 1

/-! ## The per-element hold session

The closure variables of registerElement (part_004 lines 32-35), the
element-level observable outputs it writes, the host-collaborator calls
it makes, and the browser's animation-frame queue (at most one pending
callback per session, identified by its handle). -/

/-- The mutable closure variables of registerElement. -/
structure SessionVars where
  startTime : Option ℚ
  animationFrameId : Option Nat
  holdTriggered : Bool
  isActive : Bool
deriving DecidableEq

/-- The session state together with its observable environment: the
element's CSS custom property and data attribute (stored as the numbers
whose decimal renderings the source writes), the active class, the
animation-frame queue, and counters of the host calls made. -/
structure World where
  delay : ℚ
  sess : SessionVars
  cssHoldProgress : ℚ
  holdProgressData : ℤ
  hasActiveClass : Bool
  pending : Option Nat
  nextHandle : Nat
  rafCount : Nat
  triggerCount : Nat
  addClassCount : Nat
  removeClassCount : Nat
  preventedCount : Nat
deriving DecidableEq

/-- Browser cancelAnimationFrame: removes the pending callback with the
given handle, if it is still queued. -/
def cancelAnimationFrame (h : Nat) (w : World) : World :=
  if w.pending = some h then { w with pending := none } else w

/-- Browser requestAnimationFrame: queues a callback under a fresh
handle and returns it. -/
def requestAnimationFrame (w : World) : World × Nat :=
  ({ w with
      pending := some w.nextHandle, nextHandle := w.nextHandle + 1
      rafCount := w.rafCount + 1 }, w.nextHandle)

/-- Translation of clearAnimation (part_004 lines 37-42). -/
def clearAnimation (w : World) : World :=
  match w.sess.animationFrameId with
  | none => w
  | some h =>
      let w1 := cancelAnimationFrame h w
      { w1 with sess := { w1.sess with animationFrameId := none } }

/-- Translation of updateProgress (part_004 lines 44-58), with `now`
standing for Date.now() at the moment the callback runs. -/
def updateProgress (now : ℚ) (w : World) : World :=
  match w.sess.startTime with
  | none => w
  | some startTime =>
      let elapsed := now - startTime
      let progress := progressOf w.delay elapsed
      let w1 := { w with
                  cssHoldProgress := progress
                  holdProgressData := jsRound (progress * 100) }
      if 1 ≤ progress ∧ w1.sess.holdTriggered = false then
        let w2 := { w1 with sess := { w1.sess with holdTriggered := true } }
        let w3 := clearAnimation w2
        { w3 with triggerCount := w3.triggerCount + 1 }
      else if w1.sess.holdTriggered = false then
        let p := requestAnimationFrame w1
        { p.1 with sess := { p.1.sess with animationFrameId := some p.2 } }
      else w1

/-- Translation of the start-gesture listener (part_004 lines 60-72);
`cancelable` is event.cancelable and preventedCount counts the
preventDefault calls made. -/
def startHold (now : ℚ) (cancelable : Bool) (w : World) : World :=
  if w.sess.isActive then w
  else
    let w1 := if cancelable then { w with preventedCount := w.preventedCount + 1 } else w
    let s2 := { w1.sess with isActive := true, holdTriggered := false, startTime := some now }
    let w2 := { w1 with
                sess := s2, hasActiveClass := true
                addClassCount := w1.addClassCount + 1
                cssHoldProgress := 0, holdProgressData := 0 }
    let p := requestAnimationFrame w2
    { p.1 with sess := { p.1.sess with animationFrameId := some p.2 } }

/-- Translation of the cancel-gesture listener (part_004 lines 74-85). -/
def cancelHold (w : World) : World :=
  if !w.sess.isActive then w
  else
    let s1 := { w.sess with isActive := false, startTime := none, holdTriggered := false }
    let w1 := { w with sess := s1 }
    let w2 := clearAnimation w1
    { w2 with
      hasActiveClass := false, removeClassCount := w2.removeClassCount + 1
      cssHoldProgress := 0, holdProgressData := 0 }

/-- Events a session can experience: a start gesture (mousedown or
touchstart, with its cancelable flag), a cancel gesture (mouseup,
mouseleave, touchend or touchcancel), and the browser firing the
pending animation frame at wall-clock time `now`. -/
inductive Ev where
  | start (now : ℚ) (cancelable : Bool)
  | cancel
  | frame (now : ℚ)

/-- One event.  A frame event runs the queued callback (dequeued first,
as the browser does) only when one is queued; a cancelAnimationFrame
that already removed it makes the frame a no-op. -/
def step (w : World) (e : Ev) : World :=
  match e with
  | .start now c => startHold now c w
  | .cancel => cancelHold w
  | .frame now =>
      match w.pending with
      | none => w
      | some _ => updateProgress now { w with pending := none }

/-- Run a list of events. -/
def run (w : World) (es : List Ev) : World := es.foldl step w

/-- Run a list of frame events given by their times. -/
def runFrames (w : World) (ts : List ℚ) : World :=
  ts.foldl (fun v t => step v (.frame t)) w

/-- A freshly registered, idle session with the given delay
(part_004 lines 31-35: all closure variables at their initial values). -/
def initWorld (delay : ℚ) : World :=
  { delay := delay
    sess := { startTime := none, animationFrameId := none
              holdTriggered := false, isActive := false }
    cssHoldProgress := 0, holdProgressData := 0, hasActiveClass := false
    pending := none, nextHandle := 1, rafCount := 0, triggerCount := 0
    addClassCount := 0, removeClassCount := 0, preventedCount := 0 }

/-- The session a trigger declaration produces: its delay is
parseDelay(triggerSpec) ?? DEFAULT_HOLD_DELAY (part_004 line 31). -/
def sessionWorld (triggerSpec : String) : World :=
  initWorld (effectiveDelay triggerSpec)

/-! ## Registration: the onEvent hook and the processedElements WeakSet
(part_004 lines 14, 25-30, 87, 97-108) -/

/-- An element as the extension sees it: an identity plus its two
trigger attributes; getAttribute yields null (none) when absent. -/
structure Elt where
  id : Nat
  hxTrigger : Option String
  dataHxTrigger : Option String
deriving DecidableEq

/-- Extension-level registration state: the identities held by the
processedElements WeakSet, and how many times the listener batch has
been attached to each element identity. -/
structure RegState where
  processed : List Nat
  listenerSets : Nat → Nat

/-- Translation of registerElement's guard and listener attachment
(part_004 lines 30, 60-87): skip an element already in the WeakSet,
otherwise attach the listeners once and add it to the WeakSet. -/
def registerElement (rs : RegState) (e : Elt) : RegState :=
  if e.id ∈ rs.processed then rs
  else
    { processed := e.id :: rs.processed
      listenerSets := fun i => if i = e.id then rs.listenerSets i + 1 else rs.listenerSets i }

/-- The attribute lookup of the onEvent hook (part_004 lines 102-103):
getAttribute("hx-trigger") ?? getAttribute("data-hx-trigger"). -/
def triggerSpecOf (e : Elt) : Option String :=
  e.hxTrigger <|> e.dataHxTrigger

/-- The eligibility guard of the onEvent hook (part_004 line 104): a
present, non-empty trigger spec that the pattern /\bhold\b/ matches. -/
def eligible (e : Elt) : Bool :=
  match triggerSpecOf e with
  | none => false
  | some s => !s.isEmpty && holdTriggerTest s

/-- Translation of the htmx:afterProcessNode branch of onEvent
(part_004 lines 99-106): bail out unless the trigger spec is present,
non-empty and matched by /\bhold\b/, otherwise register the element. -/
def processNode (rs : RegState) (e : Elt) : RegState :=
  match triggerSpecOf e with
  | none => rs
  | some s => if !s.isEmpty && holdTriggerTest s then registerElement rs e else rs

/-- An empty registration state: nothing processed, no listeners. -/
def initRegState : RegState := { processed := [], listenerSets := fun _ => 0 }

/-! ## Helper lemmas -/

/-- A session whose tick chain is live: active, completion not yet
fired, a recorded start time, and the recorded frame handle is exactly
the queued one. -/
def ChainActive (w : World) (s : ℚ) : Prop :=
  w.sess.isActive = true ∧ w.sess.holdTriggered = false ∧
  w.sess.startTime = some s ∧ w.sess.animationFrameId = w.pending ∧
  w.pending ≠ none

theorem frame_noop (w : World) (t : ℚ) (h : w.pending = none) :
    step w (.frame t) = w := by
  simp [step, h]

theorem runFrames_cons (w : World) (t : ℚ) (ts : List ℚ) :
    runFrames w (t :: ts) = runFrames (step w (.frame t)) ts := rfl

theorem runFrames_noop (w : World) (ts : List ℚ) (h : w.pending = none) :
    runFrames w ts = w := by
  induction ts with
  | nil => rfl
  | cons t ts ih => rw [runFrames_cons, frame_noop w t h, ih]

theorem updateProgress_writes (now : ℚ) (w : World) (s : ℚ)
    (hw : w.sess.startTime = some s) :
    (updateProgress now w).cssHoldProgress = progressOf w.delay (now - s) ∧
    (updateProgress now w).holdProgressData
      = jsRound (progressOf w.delay (now - s) * 100) := by
  unfold updateProgress
  rw [hw]
  dsimp only
  split_ifs <;>
    simp [clearAnimation, cancelAnimationFrame, requestAnimationFrame] <;>
    split <;> simp_all [cancelAnimationFrame] <;> split <;> simp_all

theorem one_le_progressOf (D e : ℚ) (hD : 0 < D) :
    1 ≤ progressOf D e ↔ D ≤ e := by
  unfold progressOf
  rw [le_min_iff]
  constructor
  · intro h
    exact (one_le_div hD).mp h.1
  · intro h
    exact ⟨(one_le_div hD).mpr h, le_rfl⟩

theorem step_frame_complete (w : World) (s now : ℚ) (hD : 0 < w.delay)
    (hA : ChainActive w s) (hc : w.delay ≤ now - s) :
    step w (.frame now) =
      { w with
        pending := none
        sess := { w.sess with holdTriggered := true, animationFrameId := none }
        cssHoldProgress := 1
        holdProgressData := 100
        triggerCount := w.triggerCount + 1 } := by
  obtain ⟨hact, htr, hst, hfr, hpe⟩ := hA
  cases hp : w.pending with
  | none => exact absurd hp hpe
  | some h =>
    have hprog : progressOf w.delay (now - s) = 1 :=
      min_eq_right ((one_le_div hD).mpr hc)
    have h100 : jsRound ((100 : ℚ)) = 100 := by norm_num [jsRound]
    simp only [step, hp, updateProgress, hst, progressOf] at *
    rw [show min ((now - s) / w.delay) 1 = 1 from hprog]
    simp [htr, clearAnimation, hfr, hp, cancelAnimationFrame, h100]

theorem step_frame_tick (w : World) (s now : ℚ) (hD : 0 < w.delay)
    (hA : ChainActive w s) (hc : ¬ w.delay ≤ now - s) :
    step w (.frame now) =
      { w with
        pending := some w.nextHandle
        sess := { w.sess with animationFrameId := some w.nextHandle }
        cssHoldProgress := progressOf w.delay (now - s)
        holdProgressData := jsRound (progressOf w.delay (now - s) * 100)
        nextHandle := w.nextHandle + 1
        rafCount := w.rafCount + 1 } := by
  obtain ⟨hact, htr, hst, hfr, hpe⟩ := hA
  cases hp : w.pending with
  | none => exact absurd hp hpe
  | some h =>
    have hlt : ¬ (1 ≤ progressOf w.delay (now - s)) := by
      rw [one_le_progressOf _ _ hD]
      exact hc
    simp only [step, hp, updateProgress, hst]
    rw [if_neg (by simp [hlt, htr])]
    simp [htr, requestAnimationFrame]
    exact hst

theorem startHold_active_noop (w : World) (t : ℚ) (c : Bool)
    (hA : w.sess.isActive = true) : step w (.start t c) = w := by
  simp [step, startHold, hA]

theorem startHold_idle_spec (v : World) (t : ℚ) (c : Bool)
    (hI : v.sess.isActive = false) :
    step v (.start t c) =
      { v with
        sess := { startTime := some t, animationFrameId := some v.nextHandle
                  holdTriggered := false, isActive := true }
        cssHoldProgress := 0
        holdProgressData := 0
        hasActiveClass := true
        pending := some v.nextHandle
        nextHandle := v.nextHandle + 1
        rafCount := v.rafCount + 1
        addClassCount := v.addClassCount + 1
        preventedCount := v.preventedCount + (if c then 1 else 0) } := by
  cases c <;> simp [step, startHold, hI, requestAnimationFrame]

theorem cancelHold_idle_noop (w : World) (hI : w.sess.isActive = false) :
    step w .cancel = w := by
  simp [step, cancelHold, hI]

theorem cancelHold_active_spec (w : World) (hA : w.sess.isActive = true)
    (hq : w.sess.animationFrameId = w.pending) :
    step w .cancel =
      { w with
        sess := { startTime := none, animationFrameId := none
                  holdTriggered := false, isActive := false }
        cssHoldProgress := 0
        holdProgressData := 0
        hasActiveClass := false
        pending := none
        removeClassCount := w.removeClassCount + 1 } := by
  cases hf : w.sess.animationFrameId with
  | none =>
      have hp : w.pending = none := by rw [← hq, hf]
      simp [step, cancelHold, hA, clearAnimation, hf, hp, cancelAnimationFrame]
  | some h =>
      have hp : w.pending = some h := by rw [← hq, hf]
      simp [step, cancelHold, hA, clearAnimation, hf, hp, cancelAnimationFrame]

theorem chainActive_tick (w : World) (s now : ℚ) (hD : 0 < w.delay)
    (hA : ChainActive w s) (hc : ¬ w.delay ≤ now - s) :
    ChainActive (step w (.frame now)) s ∧
    (step w (.frame now)).triggerCount = w.triggerCount ∧
    (step w (.frame now)).delay = w.delay := by
  rw [step_frame_tick w s now hD hA hc]
  obtain ⟨h1, h2, h3, _, _⟩ := hA
  exact ⟨⟨h1, h2, h3, rfl, by simp⟩, rfl, rfl⟩

/-- Trigger-count accounting for a chain of frame callbacks in one
active episode: the signal fires exactly once when some frame observes
an elapsed time at or past the delay, and never otherwise; the
completing frame also leaves the queue empty. -/
theorem runFrames_fire_count (ts : List ℚ) : ∀ (w : World) (s : ℚ),
    0 < w.delay → ChainActive w s →
    (runFrames w ts).triggerCount =
      w.triggerCount + (if ∃ t ∈ ts, w.delay ≤ t - s then 1 else 0) ∧
    ((∃ t ∈ ts, w.delay ≤ t - s) →
      (runFrames w ts).pending = none ∧
      (runFrames w ts).sess.holdTriggered = true) := by
  induction ts with
  | nil =>
      intro w s hD hA
      simp [runFrames]
  | cons t ts ih =>
      intro w s hD hA
      rw [runFrames_cons]
      by_cases hc : w.delay ≤ t - s
      · rw [step_frame_complete w s t hD hA hc]
        rw [runFrames_noop _ ts rfl]
        rw [if_pos ⟨t, List.mem_cons_self t ts, hc⟩]
        exact ⟨rfl, fun _ => ⟨rfl, rfl⟩⟩
      · obtain ⟨hA', htc, hdel⟩ := chainActive_tick w s t hD hA hc
        have hiff : (∃ x ∈ t :: ts, w.delay ≤ x - s) ↔ (∃ x ∈ ts, w.delay ≤ x - s) := by
          constructor
          · rintro ⟨x, hx, hpx⟩
            rcases List.mem_cons.mp hx with rfl | hx'
            · exact absurd hpx hc
            · exact ⟨x, hx', hpx⟩
          · rintro ⟨x, hx, hpx⟩
            exact ⟨x, List.mem_cons_of_mem t hx, hpx⟩
        obtain ⟨ihc, ihp⟩ := ih (step w (.frame t)) s (hdel ▸ hD) hA'
        rw [hdel] at ihc ihp
        constructor
        · rw [ihc, htc]
          simp only [hiff]
        · intro hex
          exact ihp (hiff.mp hex)

theorem processNode_mem (rs : RegState) (e : Elt) (h : e.id ∈ rs.processed) :
    processNode rs e = rs := by
  unfold processNode
  cases triggerSpecOf e with
  | none => rfl
  | some s =>
      dsimp only
      split
      · simp [registerElement, h]
      · rfl

theorem processNode_fresh (rs : RegState) (e : Elt)
    (hf : e.id ∉ rs.processed) (he : eligible e = true) :
    processNode rs e =
      { processed := e.id :: rs.processed
        listenerSets := fun i =>
          if i = e.id then rs.listenerSets i + 1 else rs.listenerSets i } := by
  unfold processNode
  unfold eligible at he
  cases hsp : triggerSpecOf e with
  | none => rw [hsp] at he; exact absurd he (by simp)
  | some s =>
      rw [hsp] at he
      dsimp only at he ⊢
      rw [if_pos he]
      simp [registerElement, hf]

theorem processNode_not_eligible (rs : RegState) (e : Elt)
    (he : eligible e = false) : processNode rs e = rs := by
  unfold processNode
  unfold eligible at he
  cases hsp : triggerSpecOf e with
  | none => rfl
  | some s =>
      rw [hsp] at he
      dsimp only at he ⊢
      rw [if_neg (by simp [he])]

theorem foldl_processNode_mem (m : Nat) (rs : RegState) (e : Elt)
    (h : e.id ∈ rs.processed) :
    (List.replicate m e).foldl processNode rs = rs := by
  induction m with
  | zero => rfl
  | succ k ih =>
      rw [List.replicate_succ, List.foldl_cons, processNode_mem rs e h, ih]

/-- A just-started session on a default-delay element, used to witness
the session theorems on a concrete input. -/
def demoStart : World := step (initWorld 500) (Ev.start 0 true)

/-! ## Claims -/

/-- C1: for every session started and run to natural completion, the
hold-completed signal is emitted exactly once per Active episode, even
if several frame times lie at or past the delay: the count rises by one
exactly when some tick observes progress at 1, the completing tick
empties the frame queue and marks completion-fired, and a session with
completion fired and no queued tick never emits again. -/
theorem holdCompleted_fires_exactly_once (w : World) (s : ℚ) (ts : List ℚ)
    (hD : 0 < w.delay) (hA : ChainActive w s) :
    (runFrames w ts).triggerCount ≤ w.triggerCount + 1 ∧
    ((∃ t ∈ ts, w.delay ≤ t - s) →
      (runFrames w ts).triggerCount = w.triggerCount + 1 ∧
      (runFrames w ts).pending = none ∧
      (runFrames w ts).sess.holdTriggered = true) ∧
    (¬ (∃ t ∈ ts, w.delay ≤ t - s) →
      (runFrames w ts).triggerCount = w.triggerCount) ∧
    (∀ (v : World) (us : List ℚ), v.pending = none →
      (runFrames v us).triggerCount = v.triggerCount) := by
  obtain ⟨hcount, hdone⟩ := runFrames_fire_count ts w s hD hA
  refine ⟨?_, ?_, ?_, ?_⟩
  · rw [hcount]
    split_ifs <;> omega
  · intro hex
    obtain ⟨h1, h2⟩ := hdone hex
    rw [hcount, if_pos hex]
    exact ⟨rfl, h1, h2⟩
  · intro hex
    rw [hcount, if_neg hex, Nat.add_zero]
  · intro v us hv
    rw [runFrames_noop v us hv]

/-- Witness for C1 at a concrete started session and frame times that
reach completion. -/
theorem holdCompleted_fires_exactly_once_witness :
    (runFrames demoStart [250, 600, 700]).triggerCount ≤ demoStart.triggerCount + 1 ∧
    ((∃ t ∈ [(250 : ℚ), 600, 700], demoStart.delay ≤ t - 0) →
      (runFrames demoStart [250, 600, 700]).triggerCount = demoStart.triggerCount + 1 ∧
      (runFrames demoStart [250, 600, 700]).pending = none ∧
      (runFrames demoStart [250, 600, 700]).sess.holdTriggered = true) ∧
    (¬ (∃ t ∈ [(250 : ℚ), 600, 700], demoStart.delay ≤ t - 0) →
      (runFrames demoStart [250, 600, 700]).triggerCount = demoStart.triggerCount) ∧
    (∀ (v : World) (us : List ℚ), v.pending = none →
      (runFrames v us).triggerCount = v.triggerCount) :=
  holdCompleted_fires_exactly_once demoStart 0 [250, 600, 700] (by decide)
    ⟨rfl, rfl, rfl, rfl, by decide⟩

/-- C2: progress is min(elapsed/delay, 1), hence within the closed
interval from 0 to 1, monotone in the elapsed time, and exactly 1 at
elapsed = delay; each tick writes that progress and the rounded integer
of progress times 100 (one half yielding 50, one yielding 100, zero
yielding 0). -/
theorem progress_clamped_monotone_rounded (D t t1 t2 now s : ℚ) (w : World)
    (hD : 0 < D) (ht : 0 ≤ t) (h12 : t1 ≤ t2)
    (hw : w.sess.startTime = some s) (hwD : w.delay = D) :
    (0 ≤ progressOf D t ∧ progressOf D t ≤ 1) ∧
    progressOf D t1 ≤ progressOf D t2 ∧
    progressOf D D = 1 ∧
    (updateProgress now w).cssHoldProgress = progressOf D (now - s) ∧
    (updateProgress now w).holdProgressData = jsRound (progressOf D (now - s) * 100) ∧
    jsRound ((1 / 2 : ℚ) * 100) = 50 ∧
    jsRound ((1 : ℚ) * 100) = 100 ∧
    jsRound ((0 : ℚ) * 100) = 0 := by
  obtain ⟨hcss, hdata⟩ := updateProgress_writes now w s hw
  refine ⟨⟨?_, ?_⟩, ?_, ?_, ?_, ?_, ?_, ?_, ?_⟩
  · exact le_min (div_nonneg ht hD.le) zero_le_one
  · exact min_le_right _ _
  · exact min_le_min (by gcongr) le_rfl
  · unfold progressOf
    rw [div_self hD.ne', min_self]
  · rw [hcss, hwD]
  · rw [hdata, hwD]
  · norm_num [jsRound]
  · norm_num [jsRound]
  · norm_num [jsRound]

/-- Witness for C2 at delay 2 and concrete elapsed times. -/
theorem progress_clamped_monotone_rounded_witness :
    (0 ≤ progressOf 2 1 ∧ progressOf 2 1 ≤ 1) ∧
    progressOf 2 0 ≤ progressOf 2 1 ∧
    progressOf 2 2 = 1 ∧
    (updateProgress 1 (step (initWorld 2) (Ev.start 0 true))).cssHoldProgress
      = progressOf 2 (1 - 0) ∧
    (updateProgress 1 (step (initWorld 2) (Ev.start 0 true))).holdProgressData
      = jsRound (progressOf 2 (1 - 0) * 100) ∧
    jsRound ((1 / 2 : ℚ) * 100) = 50 ∧
    jsRound ((1 : ℚ) * 100) = 100 ∧
    jsRound ((0 : ℚ) * 100) = 0 :=
  progress_clamped_monotone_rounded 2 1 0 1 1 0
    (step (initWorld 2) (Ev.start 0 true))
    (by decide) (by decide) (by decide) rfl rfl

/-- C3: a cancel gesture on an active session clears the queued tick,
removes the active class, resets both progress outputs to zero,
returns the session to idle without emitting the completion signal,
and a cancel on an idle session changes nothing. -/
theorem cancel_resets_session (w : World)
    (hA : w.sess.isActive = true) (hq : w.sess.animationFrameId = w.pending) :
    (step w .cancel).sess.isActive = false ∧
    (step w .cancel).sess.startTime = none ∧
    (step w .cancel).sess.holdTriggered = false ∧
    (step w .cancel).sess.animationFrameId = none ∧
    (step w .cancel).pending = none ∧
    (step w .cancel).hasActiveClass = false ∧
    (step w .cancel).removeClassCount = w.removeClassCount + 1 ∧
    (step w .cancel).cssHoldProgress = 0 ∧
    (step w .cancel).holdProgressData = 0 ∧
    (step w .cancel).triggerCount = w.triggerCount ∧
    (∀ v : World, v.sess.isActive = false → step v Ev.cancel = v) := by
  rw [cancelHold_active_spec w hA hq]
  exact ⟨rfl, rfl, rfl, rfl, rfl, rfl, rfl, rfl, rfl, rfl,
    fun v hv => cancelHold_idle_noop v hv⟩

/-- Witness for C3 at a concrete active session. -/
theorem cancel_resets_session_witness :
    (step demoStart .cancel).sess.isActive = false ∧
    (step demoStart .cancel).sess.startTime = none ∧
    (step demoStart .cancel).sess.holdTriggered = false ∧
    (step demoStart .cancel).sess.animationFrameId = none ∧
    (step demoStart .cancel).pending = none ∧
    (step demoStart .cancel).hasActiveClass = false ∧
    (step demoStart .cancel).removeClassCount = demoStart.removeClassCount + 1 ∧
    (step demoStart .cancel).cssHoldProgress = 0 ∧
    (step demoStart .cancel).holdProgressData = 0 ∧
    (step demoStart .cancel).triggerCount = demoStart.triggerCount ∧
    (∀ v : World, v.sess.isActive = false → step v Ev.cancel = v) :=
  cancel_resets_session demoStart rfl rfl

/-- C4: a start gesture on an already-active session is a complete
no-op (state unchanged, no preventDefault, no new frame request, start
timestamp kept), so a double start schedules exactly one chain. -/
theorem reentrant_start_noop (w v : World) (t t' : ℚ) (c c' : Bool)
    (hA : w.sess.isActive = true) (hI : v.sess.isActive = false) :
    step w (.start t c) = w ∧
    (step v (.start t c)).rafCount = v.rafCount + 1 ∧
    step (step v (.start t c)) (.start t' c') = step v (.start t c) ∧
    (step (step v (.start t c)) (.start t' c')).rafCount = v.rafCount + 1 ∧
    (step (step v (.start t c)) (.start t' c')).preventedCount
      = (step v (.start t c)).preventedCount ∧
    (step (step v (.start t c)) (.start t' c')).sess.startTime = some t := by
  have h1 := startHold_idle_spec v t c hI
  have hact : (step v (.start t c)).sess.isActive = true := by rw [h1]
  have h2 := startHold_active_noop (step v (.start t c)) t' c' hact
  refine ⟨startHold_active_noop w t c hA, ?_, h2, ?_, ?_, ?_⟩
  · rw [h1]
  · rw [h2, h1]
  · rw [h2]
  · rw [h2, h1]

/-- Witness for C4 at concrete worlds. -/
theorem reentrant_start_noop_witness :
    step demoStart (.start 0 true) = demoStart ∧
    (step (initWorld 500) (.start 0 true)).rafCount = (initWorld 500).rafCount + 1 ∧
    step (step (initWorld 500) (.start 0 true)) (.start 5 false)
      = step (initWorld 500) (.start 0 true) ∧
    (step (step (initWorld 500) (.start 0 true)) (.start 5 false)).rafCount
      = (initWorld 500).rafCount + 1 ∧
    (step (step (initWorld 500) (.start 0 true)) (.start 5 false)).preventedCount
      = (step (initWorld 500) (.start 0 true)).preventedCount ∧
    (step (step (initWorld 500) (.start 0 true)) (.start 5 false)).sess.startTime
      = some 0 :=
  reentrant_start_noop demoStart (initWorld 500) 0 5 true false rfl rfl

/-- C5: the effective delay hands the delay: sub-token following the
hold token to the host's interval parser, which accepts integer or
decimal values with an optional ms or s unit ("hold delay:1000ms"
yielding 1000 and "hold delay:0.2s" yielding 200); no delay: token or
no parsed value falls back to 500. -/
theorem delay_parsing_delegates (s0 : String)
    (hnone : scanDelay s0.data = none) :
    effectiveDelay s0 = 500 ∧
    (∀ s1 : String, ∀ c1 : List Char, scanDelay s1.data = some c1 →
      effectiveDelay s1 = (parseInterval (String.mk c1)).getD 500) ∧
    (∀ s1 : String, ∀ c1 : List Char, scanDelay s1.data = some c1 →
      parseInterval (String.mk c1) = none → effectiveDelay s1 = 500) ∧
    effectiveDelay "hold delay:1000ms" = 1000 ∧
    effectiveDelay "hold delay:0.2s" = 200 ∧
    effectiveDelay "hold" = 500 := by
  have hdeleg : ∀ s1 : String, ∀ c1 : List Char, scanDelay s1.data = some c1 →
      effectiveDelay s1 = (parseInterval (String.mk c1)).getD 500 := by
    intro s1 c1 h
    unfold effectiveDelay parseDelay
    rw [h]
    rfl
  refine ⟨?_, hdeleg, ?_, ?_, ?_, ?_⟩
  · unfold effectiveDelay parseDelay
    rw [hnone]
    rfl
  · intro s1 c1 h hni
    rw [hdeleg s1 c1 h, hni]
    rfl
  · have h1 : scanDelay "hold delay:1000ms".data
        = some ('1' :: '0' :: '0' :: '0' :: 'm' :: 's' :: []) := by decide
    rw [hdeleg _ _ h1]
    have hs : String.mk ('1' :: '0' :: '0' :: '0' :: 'm' :: 's' :: []) = "1000ms" := rfl
    rw [hs]
    have h2 : parseIntervalSyntax "1000ms"
        = some (('1' :: '0' :: '0' :: '0' :: []), ([] : List Char), false) := by decide
    have h4 : decToRat ('1' :: '0' :: '0' :: '0' :: []) ([] : List Char) = 1000 := by
      unfold decToRat
      norm_num [show digitsToNat ('1' :: '0' :: '0' :: '0' :: []) = 1000 from by decide,
        show digitsToNat ([] : List Char) = 0 from rfl]
    unfold parseInterval
    rw [h2]
    simp only [Option.map_some']
    simp only [Option.getD_some]
    norm_num [h4]
  · have h1 : scanDelay "hold delay:0.2s".data
        = some ('0' :: '.' :: '2' :: 's' :: []) := by decide
    rw [hdeleg _ _ h1]
    have hs : String.mk ('0' :: '.' :: '2' :: 's' :: []) = "0.2s" := rfl
    rw [hs]
    have h2 : parseIntervalSyntax "0.2s"
        = some (('0' :: []), ('2' :: []), true) := by decide
    have h4 : decToRat ('0' :: []) ('2' :: []) * 1000 = 200 := by
      unfold decToRat
      norm_num [show digitsToNat ('0' :: []) = 0 from by decide,
        show digitsToNat ('2' :: []) = 2 from by decide]
    unfold parseInterval
    rw [h2]
    simp only [Option.map_some']
    simp only [Option.getD_some]
    norm_num [h4]
  · have h1 : scanDelay "hold".data = none := by decide
    unfold effectiveDelay parseDelay
    rw [h1]
    rfl

/-- Witness for C5 at a declaration with no delay: token. -/
theorem delay_parsing_delegates_witness :
    effectiveDelay "click" = 500 ∧
    (∀ s1 : String, ∀ c1 : List Char, scanDelay s1.data = some c1 →
      effectiveDelay s1 = (parseInterval (String.mk c1)).getD 500) ∧
    (∀ s1 : String, ∀ c1 : List Char, scanDelay s1.data = some c1 →
      parseInterval (String.mk c1) = none → effectiveDelay s1 = 500) ∧
    effectiveDelay "hold delay:1000ms" = 1000 ∧
    effectiveDelay "hold delay:0.2s" = 200 ∧
    effectiveDelay "hold" = 500 :=
  delay_parsing_delegates "click" (by decide)

/-- C6: a session is installed exactly when the trigger declaration
(the hx-trigger attribute, falling back to data-hx-trigger) is present,
non-empty and contains the lowercase word-boundary token hold; the
capitalized "Hold delay:200ms" matches nothing and its processing
leaves the registration state untouched. -/
theorem hold_token_gates_install (rs : RegState) (e : Elt)
    (hf : e.id ∉ rs.processed) :
    (e.id ∈ (processNode rs e).processed ↔ eligible e = true) ∧
    (eligible e = false → processNode rs e = rs) ∧
    holdTriggerTest "hold delay:200ms" = true ∧
    holdTriggerTest "Hold delay:200ms" = false ∧
    (∀ i : Nat, eligible { id := i, hxTrigger := some "Hold delay:200ms",
                           dataHxTrigger := none } = false) := by
  refine ⟨?_, processNode_not_eligible rs e, by decide, by decide, by intro i; rfl⟩
  constructor
  · intro hmem
    by_contra hne
    rw [processNode_not_eligible rs e (by simpa using hne)] at hmem
    exact hf hmem
  · intro he
    rw [processNode_fresh rs e hf he]
    exact List.mem_cons_self e.id rs.processed

/-- Witness for C6 at a fresh element carrying a capitalized Hold. -/
theorem hold_token_gates_install_witness :
    (0 ∈ (processNode initRegState
        { id := 0, hxTrigger := some "Hold delay:200ms", dataHxTrigger := none }).processed
      ↔ eligible { id := 0, hxTrigger := some "Hold delay:200ms",
                   dataHxTrigger := none } = true) ∧
    (eligible { id := 0, hxTrigger := some "Hold delay:200ms", dataHxTrigger := none }
        = false →
      processNode initRegState
        { id := 0, hxTrigger := some "Hold delay:200ms", dataHxTrigger := none }
        = initRegState) ∧
    holdTriggerTest "hold delay:200ms" = true ∧
    holdTriggerTest "Hold delay:200ms" = false ∧
    (∀ i : Nat, eligible { id := i, hxTrigger := some "Hold delay:200ms",
                           dataHxTrigger := none } = false) :=
  hold_token_gates_install initRegState
    { id := 0, hxTrigger := some "Hold delay:200ms", dataHxTrigger := none }
    (by decide)

/-- C7: installation is idempotent: re-processing an already-installed
element is silently skipped through the membership check, and any
positive number of processings of a fresh eligible element attaches the
listener set exactly once. -/
theorem installation_idempotent (rs : RegState) (e : Elt) (n : Nat)
    (hn : 1 ≤ n) (h0 : rs.listenerSets e.id = 0) (hf : e.id ∉ rs.processed)
    (he : eligible e = true) :
    processNode (processNode rs e) e = processNode rs e ∧
    ((List.replicate n e).foldl processNode rs).listenerSets e.id = 1 ∧
    (∀ rs2 : RegState, e.id ∈ rs2.processed → processNode rs2 e = rs2) := by
  have hfr := processNode_fresh rs e hf he
  have hmem : e.id ∈ (processNode rs e).processed := by
    rw [hfr]
    exact List.mem_cons_self e.id rs.processed
  refine ⟨processNode_mem _ e hmem, ?_, fun rs2 h => processNode_mem rs2 e h⟩
  cases n with
  | zero => omega
  | succ m =>
      rw [List.replicate_succ, List.foldl_cons,
        foldl_processNode_mem m (processNode rs e) e hmem, hfr]
      simp [h0]

/-- Witness for C7: a fresh eligible element processed three times. -/
theorem installation_idempotent_witness :
    processNode (processNode initRegState
        { id := 0, hxTrigger := some "hold delay:200ms", dataHxTrigger := none })
        { id := 0, hxTrigger := some "hold delay:200ms", dataHxTrigger := none }
      = processNode initRegState
        { id := 0, hxTrigger := some "hold delay:200ms", dataHxTrigger := none } ∧
    ((List.replicate 3
        { id := 0, hxTrigger := some "hold delay:200ms", dataHxTrigger := none }).foldl
        processNode initRegState).listenerSets 0 = 1 ∧
    (∀ rs2 : RegState,
      0 ∈ rs2.processed →
      processNode rs2 { id := 0, hxTrigger := some "hold delay:200ms",
                        dataHxTrigger := none } = rs2) :=
  installation_idempotent initRegState
    { id := 0, hxTrigger := some "hold delay:200ms", dataHxTrigger := none }
    3 (by decide) rfl (by decide) (by decide)

/-- C8: once a cancel has executed on an active session, the queued
tick is invalidated through its handle, so no stale tick can fire
afterwards: any number of later frame callbacks leave the state exactly
as the cancel left it — no completion signal, no progress write, no
visual change. -/
theorem cancel_invalidates_stale_ticks (w : World) (ts : List ℚ)
    (hA : w.sess.isActive = true) (hq : w.sess.animationFrameId = w.pending) :
    (step w .cancel).pending = none ∧
    runFrames (step w .cancel) ts = step w .cancel ∧
    (runFrames (step w .cancel) ts).triggerCount = w.triggerCount ∧
    (runFrames (step w .cancel) ts).cssHoldProgress = 0 ∧
    (runFrames (step w .cancel) ts).holdProgressData = 0 ∧
    (runFrames (step w .cancel) ts).hasActiveClass = false := by
  have hspec := cancelHold_active_spec w hA hq
  have hpend : (step w .cancel).pending = none := by rw [hspec]
  have hrun := runFrames_noop (step w .cancel) ts hpend
  refine ⟨hpend, hrun, ?_, ?_, ?_, ?_⟩ <;> rw [hrun, hspec]

/-- Witness for C8 at a concrete active session, close to completion. -/
theorem cancel_invalidates_stale_ticks_witness :
    (step demoStart .cancel).pending = none ∧
    runFrames (step demoStart .cancel) [499, 500, 1000] = step demoStart .cancel ∧
    (runFrames (step demoStart .cancel) [499, 500, 1000]).triggerCount
      = demoStart.triggerCount ∧
    (runFrames (step demoStart .cancel) [499, 500, 1000]).cssHoldProgress = 0 ∧
    (runFrames (step demoStart .cancel) [499, 500, 1000]).holdProgressData = 0 ∧
    (runFrames (step demoStart .cancel) [499, 500, 1000]).hasActiveClass = false :=
  cancel_invalidates_stale_ticks demoStart [499, 500, 1000] rfl rfl

/-- C9: the completing tick writes the final progress values 1 and 100,
fires the signal, empties the queue and sets the completion flag, and
changes nothing else — in particular the active class and the
class-remove count stay as they were, the class removal happening only
on cancel. -/
theorem completion_keeps_active_class (w : World) (s now : ℚ)
    (hD : 0 < w.delay) (hA : ChainActive w s) (hc : w.delay ≤ now - s) :
    step w (.frame now) =
      { w with
        pending := none
        sess := { w.sess with holdTriggered := true, animationFrameId := none }
        cssHoldProgress := 1
        holdProgressData := 100
        triggerCount := w.triggerCount + 1 } ∧
    (step w (.frame now)).hasActiveClass = w.hasActiveClass ∧
    (step w (.frame now)).removeClassCount = w.removeClassCount ∧
    (step w (.frame now)).cssHoldProgress = 1 ∧
    (step w (.frame now)).holdProgressData = 100 ∧
    (step w (.frame now)).triggerCount = w.triggerCount + 1 ∧
    (step w (.frame now)).sess.isActive = w.sess.isActive ∧
    (step w (.frame now)).sess.startTime = w.sess.startTime ∧
    (step w (.frame now)).addClassCount = w.addClassCount := by
  have hspec := step_frame_complete w s now hD hA hc
  refine ⟨hspec, ?_, ?_, ?_, ?_, ?_, ?_, ?_, ?_⟩ <;> rw [hspec]

/-- Witness for C9 at a concrete session completing at its delay. -/
theorem completion_keeps_active_class_witness :
    step demoStart (.frame 500) =
      { demoStart with
        pending := none
        sess := { demoStart.sess with holdTriggered := true, animationFrameId := none }
        cssHoldProgress := 1
        holdProgressData := 100
        triggerCount := demoStart.triggerCount + 1 } ∧
    (step demoStart (.frame 500)).hasActiveClass = demoStart.hasActiveClass ∧
    (step demoStart (.frame 500)).removeClassCount = demoStart.removeClassCount ∧
    (step demoStart (.frame 500)).cssHoldProgress = 1 ∧
    (step demoStart (.frame 500)).holdProgressData = 100 ∧
    (step demoStart (.frame 500)).triggerCount = demoStart.triggerCount + 1 ∧
    (step demoStart (.frame 500)).sess.isActive = demoStart.sess.isActive ∧
    (step demoStart (.frame 500)).sess.startTime = demoStart.sess.startTime ∧
    (step demoStart (.frame 500)).addClassCount = demoStart.addClassCount :=
  completion_keeps_active_class demoStart 0 500 (by decide)
    ⟨rfl, rfl, rfl, rfl, by decide⟩
    (by show (500 : ℚ) ≤ 500 - 0; norm_num)

/-- The state reached by starting a default-delay session at time 0 and
letting its tick complete it at time 500. -/
def c10World : World := step demoStart (Ev.frame 500)

/-- The same state written out in full. -/
def donePost : World :=
  { delay := 500
    sess := { startTime := some 0, animationFrameId := none
              holdTriggered := true, isActive := true }
    cssHoldProgress := 1, holdProgressData := 100, hasActiveClass := true
    pending := none, nextHandle := 2, rafCount := 1, triggerCount := 1
    addClassCount := 1, removeClassCount := 0, preventedCount := 1 }

theorem c10World_eq : c10World = donePost := by
  have hspec := step_frame_complete demoStart 0 500 (by decide)
    ⟨rfl, rfl, rfl, rfl, by decide⟩
    (by show (500 : ℚ) ≤ 500 - 0; norm_num)
  unfold c10World
  rw [hspec]
  rfl

/-- Counterexample for C10: after a session completes naturally, the
session is still marked active, so a start gesture arriving straight
from the post-completion state (with no release in between) is a
complete no-op: the state is unchanged, the scheduling primitive is not
invoked again and the start timestamp is not renewed. -/
theorem start_after_completion_counterexample :
    c10World.sess.holdTriggered = true ∧
    c10World.triggerCount = 1 ∧
    step c10World (Ev.start 600 true) = c10World ∧
    (step c10World (Ev.start 600 true)).rafCount = 1 ∧
    (step c10World (Ev.start 600 true)).sess.startTime = some 0 := by
  have hnoop : step c10World (Ev.start 600 true) = c10World := by
    rw [c10World_eq]
    exact startHold_active_noop donePost 600 true rfl
  rw [c10World_eq] at hnoop ⊢
  rw [hnoop]
  exact ⟨rfl, rfl, rfl, rfl, rfl⟩

/-- C10 (amended): a start gesture straight from the post-completion
state is a no-op; once a cancel gesture (the release that follows a
completed hold) has returned the session to idle, a new start gesture
begins a fresh Active episode with a new start timestamp, progress
reinitialized to zero and a newly scheduled tick chain. -/
theorem restart_after_release (w : World) (t' : ℚ) (c : Bool)
    (hA : w.sess.isActive = true) (_hT : w.sess.holdTriggered = true)
    (hp : w.pending = none) (hq : w.sess.animationFrameId = none) :
    step w (.start t' c) = w ∧
    (step (step w .cancel) (.start t' c)).sess.isActive = true ∧
    (step (step w .cancel) (.start t' c)).sess.holdTriggered = false ∧
    (step (step w .cancel) (.start t' c)).sess.startTime = some t' ∧
    (step (step w .cancel) (.start t' c)).cssHoldProgress = 0 ∧
    (step (step w .cancel) (.start t' c)).holdProgressData = 0 ∧
    (step (step w .cancel) (.start t' c)).rafCount = w.rafCount + 1 ∧
    (step (step w .cancel) (.start t' c)).pending = some (step w .cancel).nextHandle := by
  have hcan := cancelHold_active_spec w hA (hq.trans hp.symm)
  have hidle : (step w .cancel).sess.isActive = false := by rw [hcan]
  have hst := startHold_idle_spec (step w .cancel) t' c hidle
  refine ⟨startHold_active_noop w t' c hA, ?_, ?_, ?_, ?_, ?_, ?_, ?_⟩ <;>
    rw [hst] <;> rw [hcan]

/-- Witness for the amended C10 at the concrete completed session. -/
theorem restart_after_release_witness :
    step donePost (.start 700 true) = donePost ∧
    (step (step donePost .cancel) (.start 700 true)).sess.isActive = true ∧
    (step (step donePost .cancel) (.start 700 true)).sess.holdTriggered = false ∧
    (step (step donePost .cancel) (.start 700 true)).sess.startTime = some 700 ∧
    (step (step donePost .cancel) (.start 700 true)).cssHoldProgress = 0 ∧
    (step (step donePost .cancel) (.start 700 true)).holdProgressData = 0 ∧
    (step (step donePost .cancel) (.start 700 true)).rafCount = donePost.rafCount + 1 ∧
    (step (step donePost .cancel) (.start 700 true)).pending
      = some (step donePost .cancel).nextHandle :=
  restart_after_release donePost 700 true rfl rfl rfl rfl

end HtmxHold
